import Mathlib

/-
  Shallow embedding of the Raytracing repository (Rust sources:
  cube.rs, color.rs, camera.rs, texture.rs, material.rs, main.rs).
  Floating-point scalars are modelled by the rationals for the geometry,
  color and shadow code (all arithmetic there is field arithmetic), and by
  the reals for the camera, whose orbit operation uses trigonometry.
-/

namespace Raytracing

/-- Three-component vector, the embedding of nalgebra_glm Vec3; the scalar
type is a parameter so the same structure serves the rational geometry code
and the real-valued camera code. -/
structure Vec3 (α : Type) where
  x : α
  y : α
  z : α
deriving DecidableEq

namespace Vec3

variable {α : Type}

instance [Add α] : Add (Vec3 α) :=
  ⟨fun a b => ⟨a.x + b.x, a.y + b.y, a.z + b.z⟩⟩

instance [Sub α] : Sub (Vec3 α) :=
  ⟨fun a b => ⟨a.x - b.x, a.y - b.y, a.z - b.z⟩⟩

instance [Neg α] : Neg (Vec3 α) :=
  ⟨fun a => ⟨-a.x, -a.y, -a.z⟩⟩

instance [Mul α] : SMul α (Vec3 α) :=
  ⟨fun s v => ⟨s * v.x, s * v.y, s * v.z⟩⟩

/-- Component-wise product, the embedding of nalgebra component_mul. -/
def cmul [Mul α] (a b : Vec3 α) : Vec3 α :=
  ⟨a.x * b.x, a.y * b.y, a.z * b.z⟩

/-- Component-wise reciprocal, the embedding of the expression
1.0 / direction in cube.rs. -/
def recip [Div α] [One α] (v : Vec3 α) : Vec3 α :=
  ⟨1 / v.x, 1 / v.y, 1 / v.z⟩

/-- Dot product. -/
def dot [Mul α] [Add α] (a b : Vec3 α) : α :=
  a.x * b.x + a.y * b.y + a.z * b.z

/-- Component-wise minimum, the embedding of t0.min(t1) in cube.rs. -/
def cmin [LinearOrder α] (a b : Vec3 α) : Vec3 α :=
  ⟨min a.x b.x, min a.y b.y, min a.z b.z⟩

/-- Component-wise maximum, the embedding of t0.max(t1) in cube.rs. -/
def cmax [LinearOrder α] (a b : Vec3 α) : Vec3 α :=
  ⟨max a.x b.x, max a.y b.y, max a.z b.z⟩

/-- Largest component, the embedding of the argument-free .max() call. -/
def maxElem [LinearOrder α] (v : Vec3 α) : α :=
  max v.x (max v.y v.z)

/-- Smallest component, the embedding of the argument-free .min() call. -/
def minElem [LinearOrder α] (v : Vec3 α) : α :=
  min v.x (min v.y v.z)

theorem ext3 {a b : Vec3 α} (hx : a.x = b.x) (hy : a.y = b.y)
    (hz : a.z = b.z) : a = b := by
  cases a; cases b; simp_all

end Vec3

/-- RGB color with one byte per channel; the channels are modelled as
naturals, which Color.clamp keeps in [0, 255] (color.rs). -/
structure Color where
  r : ℕ
  g : ℕ
  b : ℕ
deriving DecidableEq

namespace Color

/-- The private clamp of color.rs: negative values become 0, values above
255 become 255, anything else is kept. -/
def clamp (v : ℤ) : ℕ :=
  if v < 0 then 0 else if v > 255 then 255 else v.toNat

/-- Color::new from color.rs: clamps every channel. -/
def new (r g b : ℤ) : Color :=
  ⟨clamp r, clamp g, clamp b⟩

/-- Color::from_hex from color.rs: unpacks 0xRRGGBB. -/
def fromHex (hex : ℕ) : Color :=
  new (((hex >>> 16) &&& 255 : ℕ) : ℤ) (((hex >>> 8) &&& 255 : ℕ) : ℤ)
    ((hex &&& 255 : ℕ) : ℤ)

/-- Color::add from color.rs: channel-wise sum pushed through clamp. -/
def add (a b : Color) : Color :=
  ⟨clamp ((a.r : ℤ) + (b.r : ℤ)), clamp ((a.g : ℤ) + (b.g : ℤ)),
    clamp ((a.b : ℤ) + (b.b : ℤ))⟩

/-- Truncation toward zero, the embedding of the Rust cast from f32 to i32
used inside Color::multiply. -/
def truncQ (q : ℚ) : ℤ :=
  if 0 ≤ q then Int.floor q else Int.ceil q

/-- Color::multiply from color.rs: scales every channel by a scalar, casts
back to an integer and clamps. -/
def multiply (c : Color) (s : ℚ) : Color :=
  ⟨clamp (truncQ ((c.r : ℚ) * s)), clamp (truncQ ((c.g : ℚ) * s)),
    clamp (truncQ ((c.b : ℚ) * s))⟩

/-- Color::black from color.rs. -/
def black : Color := ⟨0, 0, 0⟩

end Color

/-- Decoded image as seen by texture.rs: a size plus a pixel function that
yields the packed 0xRRGGBB value read off the rgb channels of get_pixel. -/
structure Image where
  width : ℕ
  height : ℕ
  pixel : ℕ → ℕ → ℕ

/-- Texture from texture.rs. The Rust struct also stores the decoded image,
but after construction only width, height and color_array are ever read
(get_color), so the embedding keeps those three fields. -/
structure Texture where
  width : ℕ
  height : ℕ
  colorArray : List Color
deriving DecidableEq

namespace Texture

/-- The load_color_array loop of texture.rs writes
color_array[y*width+x] = from_hex(packed pixel at (x, y)) for every
x < width, y < height; the entry at index i therefore holds the pixel at
x = i % width, y = i / width. -/
def loadColorArray (w h : ℕ) (pixel : ℕ → ℕ → ℕ) : List Color :=
  (List.range (w * h)).map fun i => Color.fromHex (pixel (i % w) (i / w))

/-- Texture::black from texture.rs: a 1 by 1 texture backed by the all-zero
image produced by DynamicImage::new_rgb8, then run through
load_color_array. -/
def black : Texture :=
  { width := 1, height := 1, colorArray := loadColorArray 1 1 fun _ _ => 0 }

/-- Texture::new from texture.rs. File IO is embedded by passing the
outcome of ImageReader::open (outer Except) and of reader.decode (inner
Except) as a value: either failure falls back to Texture::black, success
builds the color array from the decoded image. -/
def new (res : Except String (Except String Image)) : Texture :=
  match res with
  | .error _ => black
  | .ok (.error _) => black
  | .ok (.ok img) =>
      { width := img.width, height := img.height,
        colorArray := loadColorArray img.width img.height img.pixel }

/-- Texture::get_color from texture.rs: out-of-range queries answer the
sentinel magenta 0xFF00FF, in-range queries read color_array[y*width+x]
(the getD default stands for the Rust index panic and is proved unreachable
under the length invariant). -/
def getColor (t : Texture) (x y : ℕ) : Color :=
  if x ≥ t.width ∨ y ≥ t.height then Color.fromHex 0xFF00FF
  else t.colorArray.getD (y * t.width + x) Color.black

end Texture

/-- Material from material.rs; the four albedo weights are kept as a
4-tuple of rationals. -/
structure Material where
  diffuse : Color
  specular : ℚ
  albedo : ℚ × ℚ × ℚ × ℚ
  refractiveIndex : ℚ
  hasTexture : Bool
  texture : Option Texture
  emissionColor : Option Color
  emissionIntensity : ℚ
deriving DecidableEq

/-- Material::black from material.rs. -/
def Material.black : Material :=
  { diffuse := Color.new 0 0 0, specular := 0, albedo := (0, 0, 0, 0),
    refractiveIndex := 0, hasTexture := false, texture := none,
    emissionColor := none, emissionIntensity := 0 }

/-- Modelled from the spec: the Intersect record lives in ray_intersect.rs,
which is absent from the sources; its fields are taken from the spec (hit
point, surface normal, ray distance, texture coordinates, struck material,
hit flag) and from the construction sites in cube.rs. -/
structure Intersect where
  point : Vec3 ℚ
  normal : Vec3 ℚ
  distance : ℚ
  u : ℚ
  v : ℚ
  material : Material
  isIntersecting : Bool
deriving DecidableEq

/-- Modelled from the spec: the no-hit Intersect has is_intersecting =
false; the spec gives its distance as +infinity, which the rationals lack,
but no caller reads the distance of a non-intersecting record (every use is
guarded by the flag), so 0 is stored. -/
def Intersect.empty : Intersect :=
  { point := ⟨0, 0, 0⟩, normal := ⟨0, 0, 0⟩, distance := 0, u := 0, v := 0,
    material := Material.black, isIntersecting := false }

/-- Axis-aligned cube from cube.rs. -/
structure Cube where
  min : Vec3 ℚ
  max : Vec3 ℚ
  material : Material
deriving DecidableEq

namespace Cube

/-- Cube::get_normal from cube.rs: the body ignores tmin and tmax and
returns the constant (0, 1, 0) (its comment says the real face normal could
be computed here). -/
def getNormal (c : Cube) (tmin tmax : ℚ) : Vec3 ℚ :=
  ⟨0, 1, 0⟩

/-- The t0 vector of cube.rs: (min - origin) component-multiplied with the
reciprocal direction. -/
def slabT0 (c : Cube) (o d : Vec3 ℚ) : Vec3 ℚ :=
  ((c.min - o).cmul (Vec3.recip d))

/-- The t1 vector of cube.rs: (max - origin) component-multiplied with the
reciprocal direction. -/
def slabT1 (c : Cube) (o d : Vec3 ℚ) : Vec3 ℚ :=
  ((c.max - o).cmul (Vec3.recip d))

/-- tmin of cube.rs: largest component of the component-wise minimum of t0
and t1. -/
def slabTmin (c : Cube) (o d : Vec3 ℚ) : ℚ :=
  ((c.slabT0 o d).cmin (c.slabT1 o d)).maxElem

/-- tmax of cube.rs: smallest component of the component-wise maximum of t0
and t1. -/
def slabTmax (c : Cube) (o d : Vec3 ℚ) : ℚ :=
  ((c.slabT0 o d).cmax (c.slabT1 o d)).minElem

/-- Cube::intersect from cube.rs (the inherent method and the RayIntersect
impl have identical bodies): a hit is produced when tmax >= tmin and
tmax >= 0, carrying point origin + direction * tmin, the get_normal value,
distance tmin and the cube material; the remaining fields come from
Default::default(). -/
def intersect (c : Cube) (o d : Vec3 ℚ) : Option Intersect :=
  if c.slabTmax o d ≥ c.slabTmin o d ∧ c.slabTmax o d ≥ 0 then
    some { point := o + c.slabTmin o d • d,
           normal := c.getNormal (c.slabTmin o d) (c.slabTmax o d),
           distance := c.slabTmin o d, u := 0, v := 0,
           material := c.material, isIntersecting := true }
  else
    none

/-- Modelled from the spec: the RayIntersect trait method ray_intersect
called by main.rs lives in the absent ray_intersect.rs; per the spec the
no-hit state is the empty record with is_intersecting = false, so the
method is the slab test of cube.rs with the miss mapped to
Intersect::empty. -/
def rayIntersect (c : Cube) (o d : Vec3 ℚ) : Intersect :=
  match c.intersect o d with
  | some i => i
  | none => Intersect.empty

end Cube

/-- The BIAS constant of main.rs. -/
def bias : ℚ := 1 / 1000

/-- offset_origin from main.rs: pushes the hit point away from the surface
by BIAS along the normal, against the normal when the ray direction points
into the surface. -/
def offsetOrigin (i : Intersect) (d : Vec3 ℚ) : Vec3 ℚ :=
  if d.dot i.normal < 0 then i.point - bias • i.normal
  else i.point + bias • i.normal

/-- The for loop inside cast_shadow of main.rs: shadow_intensity starts at
0.0; the first object whose shadow-ray intersection is a hit closer than
the light sets the intensity (inverse-square falloff of the distance ratio
for an emissive occluder, 1.0 otherwise) and breaks. -/
def castShadowLoop (so ld : Vec3 ℚ) (lightDistance : ℚ) :
    List Cube → ℚ
  | [] => 0
  | c :: rest =>
    let si := c.rayIntersect so ld
    if si.isIntersecting = true ∧ si.distance < lightDistance then
      match c.material.emissionColor with
      | some _ =>
          1 / ((si.distance / lightDistance) * (si.distance / lightDistance))
      | none => 1
    else castShadowLoop so ld lightDistance rest

/-- cast_shadow from main.rs: offsets the shadow-ray origin, then runs the
occluder loop over the object list. -/
def castShadow (i : Intersect) (objects : List Cube) (lightDir : Vec3 ℚ)
    (lightDistance : ℚ) : ℚ :=
  castShadowLoop (offsetOrigin i lightDir) lightDir lightDistance objects

/-- The occlusion test of the cast_shadow loop as a boolean predicate: the
object's shadow-ray intersection is a hit strictly closer than the light. -/
def shadowHit (i : Intersect) (ld : Vec3 ℚ) (lightDistance : ℚ)
    (c : Cube) : Bool :=
  (c.rayIntersect (offsetOrigin i ld) ld).isIntersecting &&
    decide ((c.rayIntersect (offsetOrigin i ld) ld).distance < lightDistance)

/-- reflect from main.rs: incident - 2 * (incident . normal) * normal. -/
def reflect (i n : Vec3 ℚ) : Vec3 ℚ :=
  i - (2 * i.dot n) • n

/-- Spec-side tmin, written from the claim wording: t0 = (min - origin) /
direction and t1 = (max - origin) / direction component-wise, then the
maximum over the three axes of min(t0, t1). -/
def specTmin (c : Cube) (o d : Vec3 ℚ) : ℚ :=
  max (min ((c.min.x - o.x) / d.x) ((c.max.x - o.x) / d.x))
    (max (min ((c.min.y - o.y) / d.y) ((c.max.y - o.y) / d.y))
      (min ((c.min.z - o.z) / d.z) ((c.max.z - o.z) / d.z)))

/-- Spec-side tmax, written from the claim wording: the minimum over the
three axes of max(t0, t1). -/
def specTmax (c : Cube) (o d : Vec3 ℚ) : ℚ :=
  min (max ((c.min.x - o.x) / d.x) ((c.max.x - o.x) / d.x))
    (min (max ((c.min.y - o.y) / d.y) ((c.max.y - o.y) / d.y))
      (max ((c.min.z - o.z) / d.z) ((c.max.z - o.z) / d.z)))

/-- Euclidean length of a real vector, the embedding of nalgebra
magnitude. -/
noncomputable def magnitude (v : Vec3 ℝ) : ℝ :=
  Real.sqrt (v.x * v.x + v.y * v.y + v.z * v.z)

/-- nalgebra normalize: the vector divided by its length. -/
noncomputable def normalize (v : Vec3 ℝ) : Vec3 ℝ :=
  ⟨v.x / magnitude v, v.y / magnitude v, v.z / magnitude v⟩

/-- Rust f32::atan2 on the reals, by the usual case analysis on the
quadrant. -/
noncomputable def atan2 (y x : ℝ) : ℝ :=
  if 0 < x then Real.arctan (y / x)
  else if x < 0 ∧ 0 ≤ y then Real.arctan (y / x) + Real.pi
  else if x < 0 then Real.arctan (y / x) - Real.pi
  else if 0 < y then Real.pi / 2
  else if y < 0 then -(Real.pi / 2)
  else 0

/-- Truncation toward zero on the reals, used by the Rust float remainder. -/
noncomputable def truncR (x : ℝ) : ℝ :=
  if 0 ≤ x then (Int.floor x : ℝ) else (Int.ceil x : ℝ)

/-- Rust % on floats: a - b * trunc(a / b). -/
noncomputable def frem (a b : ℝ) : ℝ :=
  a - b * truncR (a / b)

/-- Rust f32::clamp(lo, hi). -/
noncomputable def clampR (x lo hi : ℝ) : ℝ :=
  if x < lo then lo else if x > hi then hi else x

/-- The PITCH_LIMIT constant of camera.rs: pi / 2 - 0.1. -/
noncomputable def pitchLimit : ℝ := Real.pi / 2 - 1 / 10

/-- Camera from camera.rs. -/
structure Camera where
  eye : Vec3 ℝ
  center : Vec3 ℝ
  up : Vec3 ℝ
  hasChanged : Bool

namespace Camera

/-- Camera::new from camera.rs: stores the three vectors and raises the
changed flag. -/
def new (eye center up : Vec3 ℝ) : Camera :=
  { eye := eye, center := center, up := up, hasChanged := true }

/-- Camera::orbit from camera.rs. Note that the source computes radius_xz
as radius_vector.xy().norm(), i.e. from the x and y components; the
embedding reproduces that. The new eye is placed on the sphere of radius
|eye - center| around the center via the spherical-coordinate formula, and
the changed flag is raised. -/
noncomputable def orbit (cam : Camera) (deltaYaw deltaPitch : ℝ) : Camera :=
  let rv := cam.eye - cam.center
  let radius := magnitude rv
  let radiusXZ := Real.sqrt (rv.x * rv.x + rv.y * rv.y)
  let currentYaw := atan2 rv.z rv.x
  let currentPitch := atan2 (-rv.y) radiusXZ
  let newYaw := frem (currentYaw + deltaYaw) (2 * Real.pi)
  let newPitch := clampR (currentPitch + deltaPitch) (-pitchLimit) pitchLimit
  let cosPitch := Real.cos newPitch
  let newEye : Vec3 ℝ := cam.center +
    ⟨radius * Real.cos newYaw * cosPitch,
     -(radius * Real.sin newPitch),
     radius * Real.sin newYaw * cosPitch⟩
  { cam with eye := newEye, hasChanged := true }

/-- Camera::zoom from camera.rs: moves the eye along the normalized
eye-to-center direction and raises the changed flag. -/
noncomputable def zoom (cam : Camera) (delta : ℝ) : Camera :=
  let direction := normalize (cam.center - cam.eye)
  { cam with eye := cam.eye + delta • direction, hasChanged := true }

/-- Camera::is_changed from camera.rs: reports the flag and clears it; the
returned pair carries the reported boolean and the camera after the call. -/
def isChanged (cam : Camera) : Bool × Camera :=
  if cam.hasChanged then (true, { cam with hasChanged := false })
  else (false, cam)

end Camera

/-- Unit cube with corners (0,0,0) and (1,1,1), used as concrete input. -/
def unitCube : Cube :=
  { min := ⟨0, 0, 0⟩, max := ⟨1, 1, 1⟩, material := Material.black }

/-- Concrete opaque occluder cube with corners (1,1,1) and (2,2,2). -/
def occluder : Cube :=
  { min := ⟨1, 1, 1⟩, max := ⟨2, 2, 2⟩, material := Material.black }

/-- Concrete surface hit record at the origin with upward normal, used as
the shadow-ray start. -/
def hitRec : Intersect :=
  { point := ⟨0, 0, 0⟩, normal := ⟨0, 1, 0⟩, distance := 0, u := 0, v := 0,
    material := Material.black, isIntersecting := true }

/-- Concrete 2 by 1 texture used as a sampling input. -/
def texA : Texture :=
  { width := 2, height := 1,
    colorArray := [Color.fromHex 0xAB, Color.fromHex 0xCD] }

theorem vadd_def {α : Type} [Add α] (a b : Vec3 α) :
    a + b = ⟨a.x + b.x, a.y + b.y, a.z + b.z⟩ := rfl

theorem vsub_def {α : Type} [Sub α] (a b : Vec3 α) :
    a - b = ⟨a.x - b.x, a.y - b.y, a.z - b.z⟩ := rfl

theorem vsmul_def {α : Type} [Mul α] (s : α) (v : Vec3 α) :
    s • v = ⟨s * v.x, s * v.y, s * v.z⟩ := rfl

theorem intersect_pos (c : Cube) (o d : Vec3 ℚ)
    (h : c.slabTmax o d ≥ c.slabTmin o d ∧ c.slabTmax o d ≥ 0) :
    c.intersect o d =
      some { point := o + c.slabTmin o d • d,
             normal := c.getNormal (c.slabTmin o d) (c.slabTmax o d),
             distance := c.slabTmin o d, u := 0, v := 0,
             material := c.material, isIntersecting := true } := by
  rw [Cube.intersect, if_pos h]

theorem intersect_neg (c : Cube) (o d : Vec3 ℚ)
    (h : ¬(c.slabTmax o d ≥ c.slabTmin o d ∧ c.slabTmax o d ≥ 0)) :
    c.intersect o d = none := by
  rw [Cube.intersect, if_neg h]

/-- C6: Color arithmetic saturates. Every channel of a.add(b) is
min(channel sum, 255); every channel of c.multiply(s) lies in [0, 255]
(the channel type is a natural, so nonnegativity is by construction);
Color::clamp maps any integer to max(0, min(v, 255)), so no channel ever
wraps; and Color(250,0,0).add(Color(20,0,0)) = Color(255,0,0). -/
theorem color_arithmetic_saturates :
    (∀ a b : Color, (a.add b).r = min (a.r + b.r) 255 ∧
      (a.add b).g = min (a.g + b.g) 255 ∧ (a.add b).b = min (a.b + b.b) 255) ∧
    (∀ (c : Color) (s : ℚ), (c.multiply s).r ≤ 255 ∧
      (c.multiply s).g ≤ 255 ∧ (c.multiply s).b ≤ 255) ∧
    (∀ v : ℤ, (Color.clamp v : ℤ) = max 0 (min v 255)) ∧
    Color.add ⟨250, 0, 0⟩ ⟨20, 0, 0⟩ = ⟨255, 0, 0⟩ := by
  refine ⟨?_, ?_, ?_, by decide⟩
  · intro a b
    refine ⟨?_, ?_, ?_⟩ <;>
      simp only [Color.add, Color.clamp] <;> split_ifs <;> omega
  · intro c s
    refine ⟨?_, ?_, ?_⟩ <;>
      simp only [Color.multiply, Color.clamp] <;> split_ifs <;> omega
  · intro v
    simp only [Color.clamp]
    split_ifs <;> omega

/-- C7: Texture construction fails soft. If either the open step or the
decode step fails, Texture::new yields the 1 by 1 all-black texture instead
of propagating the error. -/
theorem texture_new_fails_soft :
    (∀ e : String, (Texture.new (.error e)).width = 1 ∧
      (Texture.new (.error e)).height = 1 ∧
      (Texture.new (.error e)).colorArray = [Color.black]) ∧
    (∀ e : String, (Texture.new (.ok (.error e))).width = 1 ∧
      (Texture.new (.ok (.error e))).height = 1 ∧
      (Texture.new (.ok (.error e))).colorArray = [Color.black]) := by
  constructor <;> intro e <;>
    exact ⟨rfl, rfl, show Texture.black.colorArray = [Color.black] by decide⟩

/-- C8: Texture::get_color answers the sentinel magenta 0xFF00FF for any
out-of-range query and the stored color at index y*width+x for an in-range
query; under the length invariant of the color array the in-range index is
within bounds, so the pixel array is never accessed out of bounds. -/
theorem texture_getColor_spec (t : Texture) (x y : ℕ) :
    (x ≥ t.width ∨ y ≥ t.height →
      t.getColor x y = Color.fromHex 0xFF00FF) ∧
    (x < t.width → y < t.height →
      t.getColor x y = t.colorArray.getD (y * t.width + x) Color.black ∧
      (t.colorArray.length = t.width * t.height →
        y * t.width + x < t.colorArray.length)) := by
  constructor
  · intro h
    rw [Texture.getColor, if_pos h]
  · intro hx hy
    constructor
    · rw [Texture.getColor, if_neg (by push_neg; exact ⟨hx, hy⟩)]
    · intro hlen
      rw [hlen]
      calc y * t.width + x < y * t.width + t.width := by omega
        _ = (y + 1) * t.width := by ring
        _ ≤ t.height * t.width := Nat.mul_le_mul_right _ (by omega)
        _ = t.width * t.height := Nat.mul_comm _ _

/-- C8 witness: on the concrete 2 by 1 texture, the query (9, 0) is out of
range and answers magenta, and the query (1, 0) reads the stored entry at
index 0*width+1. -/
theorem texture_getColor_spec_witness :
    texA.getColor 9 0 = Color.fromHex 0xFF00FF ∧
    texA.getColor 1 0 = texA.colorArray.getD (0 * texA.width + 1) Color.black :=
  ⟨(texture_getColor_spec texA 9 0).1 (Or.inl (by decide)),
   ((texture_getColor_spec texA 1 0).2 (by decide) (by decide)).1⟩

/-- C10: Camera::is_changed consumes the changed flag. It reports exactly
the stored flag, always leaves the flag false afterwards (so the second of
two consecutive calls reports false), leaves eye, center and up unchanged,
and the flag is raised by construction, orbit and zoom. -/
theorem camera_isChanged_consumes_flag :
    (∀ cam : Camera, cam.isChanged.1 = cam.hasChanged ∧
      cam.isChanged.2.hasChanged = false ∧
      cam.isChanged.2.eye = cam.eye ∧
      cam.isChanged.2.center = cam.center ∧
      cam.isChanged.2.up = cam.up ∧
      cam.isChanged.2.isChanged.1 = false) ∧
    (∀ e c u, (Camera.new e c u).hasChanged = true) ∧
    (∀ (cam : Camera) (dy dp : ℝ), (cam.orbit dy dp).hasChanged = true) ∧
    (∀ (cam : Camera) (d : ℝ), (cam.zoom d).hasChanged = true) := by
  refine ⟨?_, fun e c u => rfl, fun cam dy dp => rfl, fun cam d => rfl⟩
  intro cam
  cases h : cam.hasChanged <;> simp [Camera.isChanged, h]

/-- C1: contrary to the claim, Cube::get_normal is a placeholder that
returns (0, 1, 0) for every cube and every tmin, tmax; in particular the
hit produced by firing at the +x face of the unit cube (ray from
(2, 1/2, 1/2), direction (-1, 1/1000, 1/1000), which strikes the x = 1
face at tmin) carries normal (0, 1, 0), not the outward face normal
(1, 0, 0). -/
theorem cube_getNormal_placeholder :
    (∀ (c : Cube) (tmin tmax : ℚ), c.getNormal tmin tmax = ⟨0, 1, 0⟩) ∧
    Option.map Intersect.normal
      (unitCube.intersect ⟨2, 1/2, 1/2⟩ ⟨-1, 1/1000, 1/1000⟩) =
      some ⟨0, 1, 0⟩ ∧
    (⟨0, 1, 0⟩ : Vec3 ℚ) ≠ ⟨1, 0, 0⟩ := by
  refine ⟨fun c tmin tmax => rfl, ?_, ?_⟩
  · norm_num [Cube.intersect, Cube.slabTmin, Cube.slabT0, Cube.slabT1,
      Cube.slabTmax, Vec3.cmul, Vec3.recip, Vec3.cmin, Vec3.cmax,
      Vec3.maxElem, Vec3.minElem, unitCube, Cube.getNormal, vsub_def,
      vadd_def, vsmul_def, min_def, max_def]
  · simp [Vec3.mk.injEq]

/-- C2 counterexample: for the unit cube and the ray starting strictly
inside it at (1/2, 1/2, 1/2) with direction (1, 1, 1), Cube::intersect
returns a hit whose distance field is -1/2, which is not >= 0. -/
theorem cube_interior_distance_cex :
    Option.map Intersect.distance
      (unitCube.intersect ⟨1/2, 1/2, 1/2⟩ ⟨1, 1, 1⟩) = some (-(1/2)) ∧
    ¬((-(1/2) : ℚ) ≥ 0) := by
  constructor
  · norm_num [Cube.intersect, Cube.slabTmin, Cube.slabT0, Cube.slabT1,
      Cube.slabTmax, Vec3.cmul, Vec3.recip, Vec3.cmin, Vec3.cmax,
      Vec3.maxElem, Vec3.minElem, unitCube, Cube.getNormal, vsub_def,
      vadd_def, vsmul_def, min_def, max_def]
  · norm_num

theorem slab_axis_interior {m M o d : ℚ} (h1 : m < o) (h2 : o < M)
    (hd : d ≠ 0) :
    min ((m - o) * (1 / d)) ((M - o) * (1 / d)) < 0 ∧
    0 < max ((m - o) * (1 / d)) ((M - o) * (1 / d)) := by
  rcases hd.lt_or_lt with hneg | hpos
  · have hinv : 1 / d < 0 := one_div_neg.mpr hneg
    constructor
    · exact min_lt_iff.mpr (Or.inr (mul_neg_of_pos_of_neg (by linarith) hinv))
    · exact lt_max_iff.mpr (Or.inl (mul_pos_of_neg_of_neg (by linarith) hinv))
  · have hinv : 0 < 1 / d := by positivity
    constructor
    · exact min_lt_iff.mpr (Or.inl (mul_neg_of_neg_of_pos (by linarith) hinv))
    · exact lt_max_iff.mpr (Or.inr (mul_pos (by linarith) hinv))

/-- C2 amended: for every cube and every ray whose origin lies strictly
inside it (components of the direction nonzero, so that the rational
embedding agrees with the IEEE evaluation), Cube::intersect does return a
hit, but its distance field is the raw tmin, which is negative; no
clamping to 0 is performed. -/
theorem cube_interior_origin_hit_negative (c : Cube) (o d : Vec3 ℚ)
    (hx1 : c.min.x < o.x) (hx2 : o.x < c.max.x)
    (hy1 : c.min.y < o.y) (hy2 : o.y < c.max.y)
    (hz1 : c.min.z < o.z) (hz2 : o.z < c.max.z)
    (hdx : d.x ≠ 0) (hdy : d.y ≠ 0) (hdz : d.z ≠ 0) :
    Option.map Intersect.distance (c.intersect o d) =
      some (c.slabTmin o d) ∧ c.slabTmin o d < 0 := by
  have Hx := slab_axis_interior hx1 hx2 hdx
  have Hy := slab_axis_interior hy1 hy2 hdy
  have Hz := slab_axis_interior hz1 hz2 hdz
  have htmin : c.slabTmin o d < 0 := by
    simp only [Cube.slabTmin, Cube.slabT0, Cube.slabT1, Vec3.cmin, Vec3.cmul,
      Vec3.recip, Vec3.maxElem, vsub_def]
    exact max_lt Hx.1 (max_lt Hy.1 Hz.1)
  have htmax : 0 < c.slabTmax o d := by
    simp only [Cube.slabTmax, Cube.slabT0, Cube.slabT1, Vec3.cmax, Vec3.cmul,
      Vec3.recip, Vec3.minElem, vsub_def]
    exact lt_min Hx.2 (lt_min Hy.2 Hz.2)
  refine ⟨?_, htmin⟩
  rw [intersect_pos c o d ⟨le_of_lt (htmin.trans htmax), le_of_lt htmax⟩]
  rfl

/-- C2 witness: the amended statement instantiated at the unit cube, the
interior origin (1/2, 1/2, 1/2) and direction (1, 1, 1). -/
theorem cube_interior_origin_hit_negative_witness :
    Option.map Intersect.distance
      (unitCube.intersect ⟨1/2, 1/2, 1/2⟩ ⟨1, 1, 1⟩) =
      some (unitCube.slabTmin ⟨1/2, 1/2, 1/2⟩ ⟨1, 1, 1⟩) ∧
    unitCube.slabTmin ⟨1/2, 1/2, 1/2⟩ ⟨1, 1, 1⟩ < 0 :=
  cube_interior_origin_hit_negative unitCube ⟨1/2, 1/2, 1/2⟩ ⟨1, 1, 1⟩
    (by norm_num [unitCube]) (by norm_num [unitCube]) (by norm_num [unitCube])
    (by norm_num [unitCube]) (by norm_num [unitCube]) (by norm_num [unitCube])
    (by norm_num) (by norm_num) (by norm_num)

/-- C3: Cube::intersect implements the slab method. With the nonzero
direction components hypothesis (under which the rational embedding agrees
with the IEEE evaluation), a hit is returned exactly when tmax >= tmin and
tmax >= 0, where tmin and tmax are the spec-side quantities written from
the per-axis division formulas; every returned hit has distance tmin and
point origin + tmin * direction. -/
theorem cube_intersect_slab_method (c : Cube) (o d : Vec3 ℚ)
    (hdx : d.x ≠ 0) (hdy : d.y ≠ 0) (hdz : d.z ≠ 0) :
    ((c.intersect o d).isSome ↔
      (specTmax c o d ≥ specTmin c o d ∧ specTmax c o d ≥ 0)) ∧
    ∀ i, c.intersect o d = some i →
      i.distance = specTmin c o d ∧ i.point = o + specTmin c o d • d := by
  have e1 : c.slabTmin o d = specTmin c o d := by
    simp only [Cube.slabTmin, Cube.slabT0, Cube.slabT1, Vec3.cmin, Vec3.cmul,
      Vec3.recip, Vec3.maxElem, vsub_def, specTmin, mul_one_div]
  have e2 : c.slabTmax o d = specTmax c o d := by
    simp only [Cube.slabTmax, Cube.slabT0, Cube.slabT1, Vec3.cmax, Vec3.cmul,
      Vec3.recip, Vec3.minElem, vsub_def, specTmax, mul_one_div]
  by_cases h : specTmax c o d ≥ specTmin c o d ∧ specTmax c o d ≥ 0
  · have hsome := intersect_pos c o d (by rw [e1, e2]; exact h)
    constructor
    · rw [hsome]
      simpa using h
    · intro i hi
      rw [hsome] at hi
      have hrec := Option.some.inj hi
      subst hrec
      refine ⟨?_, ?_⟩
      · show c.slabTmin o d = specTmin c o d
        exact e1
      · show o + c.slabTmin o d • d = o + specTmin c o d • d
        rw [e1]
  · have hnone := intersect_neg c o d (by rw [e1, e2]; exact h)
    constructor
    · rw [hnone]
      simpa using h
    · intro i hi
      rw [hnone] at hi
      exact absurd hi (by simp)

/-- C3 witness: the hit-condition equivalence instantiated at the unit
cube, origin (1/2, 1/2, 1/2) and direction (1, 1, 1). -/
theorem cube_intersect_slab_method_witness :
    (unitCube.intersect ⟨1/2, 1/2, 1/2⟩ ⟨1, 1, 1⟩).isSome ↔
      (specTmax unitCube ⟨1/2, 1/2, 1/2⟩ ⟨1, 1, 1⟩ ≥
          specTmin unitCube ⟨1/2, 1/2, 1/2⟩ ⟨1, 1, 1⟩ ∧
        specTmax unitCube ⟨1/2, 1/2, 1/2⟩ ⟨1, 1, 1⟩ ≥ 0) :=
  (cube_intersect_slab_method unitCube ⟨1/2, 1/2, 1/2⟩ ⟨1, 1, 1⟩
    (by norm_num) (by norm_num) (by norm_num)).1

/-- C9: the reflection formula of main.rs is an involution: for unit
vectors i and n (unit length expressed as dot product 1), reflecting twice
about n gives back i. Only the hypothesis on n is used by the algebra. -/
theorem reflect_involution (i n : Vec3 ℚ) (hi : i.dot i = 1)
    (hn : n.dot n = 1) : reflect (reflect i n) n = i := by
  simp only [Vec3.dot] at hn
  refine Vec3.ext3 ?_ ?_ ?_ <;>
    simp only [reflect, Vec3.dot, vsub_def, vsmul_def]
  · linear_combination (4 * (i.x * n.x + i.y * n.y + i.z * n.z) * n.x) * hn
  · linear_combination (4 * (i.x * n.x + i.y * n.y + i.z * n.z) * n.y) * hn
  · linear_combination (4 * (i.x * n.x + i.y * n.y + i.z * n.z) * n.z) * hn

/-- C9 witness: the involution instantiated at the unit vectors (1, 0, 0)
and (0, 1, 0). -/
theorem reflect_involution_witness :
    Vec3.dot (⟨1, 0, 0⟩ : Vec3 ℚ) ⟨1, 0, 0⟩ = 1 ∧
    Vec3.dot (⟨0, 1, 0⟩ : Vec3 ℚ) ⟨0, 1, 0⟩ = 1 ∧
    reflect (reflect ⟨1, 0, 0⟩ ⟨0, 1, 0⟩) ⟨0, 1, 0⟩ = ⟨1, 0, 0⟩ :=
  ⟨by norm_num [Vec3.dot], by norm_num [Vec3.dot],
    reflect_involution ⟨1, 0, 0⟩ ⟨0, 1, 0⟩ (by norm_num [Vec3.dot])
      (by norm_num [Vec3.dot])⟩

theorem magnitude_sphere (cen : Vec3 ℝ) (r yaw pitch : ℝ) (hr : 0 ≤ r) :
    magnitude ((cen + ⟨r * Real.cos yaw * Real.cos pitch,
      -(r * Real.sin pitch), r * Real.sin yaw * Real.cos pitch⟩) - cen) =
      r := by
  have h1 := Real.sin_sq_add_cos_sq yaw
  have h2 := Real.sin_sq_add_cos_sq pitch
  simp only [magnitude, vadd_def, vsub_def]
  have key : (cen.x + r * Real.cos yaw * Real.cos pitch - cen.x) *
        (cen.x + r * Real.cos yaw * Real.cos pitch - cen.x) +
      (cen.y + -(r * Real.sin pitch) - cen.y) *
        (cen.y + -(r * Real.sin pitch) - cen.y) +
      (cen.z + r * Real.sin yaw * Real.cos pitch - cen.z) *
        (cen.z + r * Real.sin yaw * Real.cos pitch - cen.z) = r ^ 2 := by
    linear_combination (r ^ 2 * Real.cos pitch ^ 2) * h1 + r ^ 2 * h2
  rw [key, Real.sqrt_sq hr]

/-- C5: Camera::orbit keeps the eye on the sphere of constant radius
around the center: for any camera whose eye differs from its center and
any yaw and pitch deltas, the distance from the new eye to the center
equals the distance from the old eye to the center. -/
theorem orbit_preserves_radius (cam : Camera) (dy dp : ℝ)
    (h : cam.eye ≠ cam.center) :
    magnitude ((cam.orbit dy dp).eye - cam.center) =
      magnitude (cam.eye - cam.center) := by
  simp only [Camera.orbit]
  exact magnitude_sphere cam.center _ _ _ (Real.sqrt_nonneg _)

/-- C5 witness: the radius preservation instantiated at the camera with
eye (1, 0, 0), center (0, 0, 0), up (0, 1, 0) and deltas 1, 1. -/
theorem orbit_preserves_radius_witness :
    magnitude (((Camera.new ⟨1, 0, 0⟩ ⟨0, 0, 0⟩ ⟨0, 1, 0⟩).orbit 1 1).eye -
        (Camera.new ⟨1, 0, 0⟩ ⟨0, 0, 0⟩ ⟨0, 1, 0⟩).center) =
      magnitude ((Camera.new ⟨1, 0, 0⟩ ⟨0, 0, 0⟩ ⟨0, 1, 0⟩).eye -
        (Camera.new ⟨1, 0, 0⟩ ⟨0, 0, 0⟩ ⟨0, 1, 0⟩).center) :=
  orbit_preserves_radius (Camera.new ⟨1, 0, 0⟩ ⟨0, 0, 0⟩ ⟨0, 1, 0⟩) 1 1
    (by intro hc; simp [Camera.new, Vec3.mk.injEq] at hc)

theorem shadowHit_true_iff (i : Intersect) (ld : Vec3 ℚ) (L : ℚ)
    (c : Cube) :
    shadowHit i ld L c = true ↔
      ((c.rayIntersect (offsetOrigin i ld) ld).isIntersecting = true ∧
        (c.rayIntersect (offsetOrigin i ld) ld).distance < L) := by
  simp [shadowHit]

/-- C4: cast_shadow, classified by the first occluder found on the shadow
ray. If no object in the list intersects the shadow ray closer than the
light, the result is 0.0; if the first such occluder has no emission
color, the result is exactly 1.0; if the first such occluder is emissive,
the result is the inverse square of the occluder-distance to
light-distance ratio instead of full occlusion. -/
theorem castShadow_cases (i : Intersect) (objs : List Cube) (ld : Vec3 ℚ)
    (L : ℚ) :
    (objs.find? (shadowHit i ld L) = none → castShadow i objs ld L = 0) ∧
    (∀ c, objs.find? (shadowHit i ld L) = some c →
      (c.material.emissionColor = none → castShadow i objs ld L = 1) ∧
      (∀ e, c.material.emissionColor = some e →
        castShadow i objs ld L =
          1 / (((c.rayIntersect (offsetOrigin i ld) ld).distance / L) *
            ((c.rayIntersect (offsetOrigin i ld) ld).distance / L)))) := by
  rw [castShadow]
  induction objs with
  | nil =>
      exact ⟨fun _ => rfl, fun c hc => by simp at hc⟩
  | cons a rest ih =>
      by_cases ha : shadowHit i ld L a = true
      · have hcond := (shadowHit_true_iff i ld L a).mp ha
        have hfind : (a :: rest).find? (shadowHit i ld L) = some a :=
          List.find?_cons_of_pos _ ha
        have hloop :
            castShadowLoop (offsetOrigin i ld) ld L (a :: rest) =
              match a.material.emissionColor with
              | some _ =>
                  1 / (((a.rayIntersect (offsetOrigin i ld) ld).distance / L) *
                    ((a.rayIntersect (offsetOrigin i ld) ld).distance / L))
              | none => 1 := by
          rw [castShadowLoop, if_pos hcond]
        refine ⟨fun hn => by rw [hfind] at hn; exact absurd hn (by simp), ?_⟩
        intro c hc
        rw [hfind] at hc
        have hac := Option.some.inj hc
        subst hac
        constructor
        · intro hemi
          rw [hloop, hemi]
        · intro e hemi
          rw [hloop, hemi]
      · have hcond : ¬((a.rayIntersect (offsetOrigin i ld) ld).isIntersecting
              = true ∧
            (a.rayIntersect (offsetOrigin i ld) ld).distance < L) :=
          fun hc => ha ((shadowHit_true_iff i ld L a).mpr hc)
        have hfind : (a :: rest).find? (shadowHit i ld L) =
            rest.find? (shadowHit i ld L) :=
          List.find?_cons_of_neg _ ha
        have hloop : castShadowLoop (offsetOrigin i ld) ld L (a :: rest) =
            castShadowLoop (offsetOrigin i ld) ld L rest := by
          rw [castShadowLoop, if_neg hcond]
        rw [hfind, hloop]
        exact ih

/-- C4 witness: the full-occlusion case instantiated at a concrete scene:
the shadow ray from the hit record at the origin with direction (1, 1, 1)
toward a light at distance 10 is blocked by the opaque cube with corners
(1,1,1) and (2,2,2), and cast_shadow answers 1. -/
theorem castShadow_cases_witness :
    castShadow hitRec [occluder] ⟨1, 1, 1⟩ 10 = 1 :=
  ((castShadow_cases hitRec [occluder] ⟨1, 1, 1⟩ 10).2 occluder
    (by
      have hso : offsetOrigin hitRec ⟨1, 1, 1⟩ = ⟨0, 1/1000, 0⟩ := by
        norm_num [offsetOrigin, hitRec, bias, Vec3.dot, vadd_def, vsub_def,
          vsmul_def]
      have ht1 : occluder.slabTmin ⟨0, 1/1000, 0⟩ ⟨1, 1, 1⟩ = 1 := by
        norm_num [Cube.slabTmin, Cube.slabT0, Cube.slabT1, Vec3.cmul,
          Vec3.recip, Vec3.cmin, Vec3.cmax, Vec3.maxElem, Vec3.minElem,
          occluder, vsub_def, min_def, max_def]
      have ht2 : occluder.slabTmax ⟨0, 1/1000, 0⟩ ⟨1, 1, 1⟩ = 1999/1000 := by
        norm_num [Cube.slabTmax, Cube.slabT0, Cube.slabT1, Vec3.cmul,
          Vec3.recip, Vec3.cmin, Vec3.cmax, Vec3.maxElem, Vec3.minElem,
          occluder, vsub_def, min_def, max_def]
      have hi := intersect_pos occluder ⟨0, 1/1000, 0⟩ ⟨1, 1, 1⟩
        (by rw [ht1, ht2]; norm_num)
      rw [ht1, ht2] at hi
      have hri : occluder.rayIntersect ⟨0, 1/1000, 0⟩ ⟨1, 1, 1⟩ =
          { point := ⟨0, 1/1000, 0⟩ + (1 : ℚ) • ⟨1, 1, 1⟩,
            normal := occluder.getNormal 1 (1999/1000), distance := 1,
            u := 0, v := 0, material := occluder.material,
            isIntersecting := true } := by
        rw [Cube.rayIntersect.eq_def, hi]
      show List.find? (shadowHit hitRec ⟨1, 1, 1⟩ 10) [occluder] =
        some occluder
      rw [List.find?, shadowHit, hso, hri]
      norm_num)).1 rfl

